import Mathlib

/-!
Shallow embedding of the `images` package (manifest probing, architecture
compatibility checking, and trust-policy-scoped copying) of the kubekey
repository.  Pure data and control flow are translated directly from the Go
source; external collaborators (registry transport, the containers/image
library) are modelled as oracles supplied through environment records, so
that every execution path of `Check` and `Copy` corresponds to one choice of
oracle results.
-/

namespace Images

/-! ## JSON value model

JSON numbers are modelled as integers: every numeric field consumed by this
package (`schemaVersion`, `size`) is a Go `int`. -/

inductive Json where
  | null : Json
  | bool (b : Bool) : Json
  | num (n : Int) : Json
  | str (s : String) : Json
  | arr (elems : List Json) : Json
  | obj (fields : List (String × Json)) : Json

/-! ## Manifest schema structs (from the Go source)

Go slices are modelled as `Option (List _)`: `none` is a nil slice, `some l`
a non-nil slice.  The distinction is significant because `Check` branches on
`manifest.Manifests == nil`. -/

structure PlatformDetails where
  Architecture : String
  OS : String
  Variant : String
deriving DecidableEq

structure ManifestEntry where
  Digest : String
  MediaType : String
  Platform : PlatformDetails
  Size : Int
deriving DecidableEq

structure ImageManifest where
  Manifests : Option (List ManifestEntry)
  MediaType : String
  SchemaVersion : Int
deriving DecidableEq

def zeroPlatformDetails : PlatformDetails := { Architecture := "", OS := "", Variant := "" }

def zeroManifestEntry : ManifestEntry :=
  { Digest := "", MediaType := "", Platform := zeroPlatformDetails, Size := 0 }

def zeroImageManifest : ImageManifest :=
  { Manifests := none, MediaType := "", SchemaVersion := 0 }

/-! ## Go `encoding/json` unmarshalling into the structs above

Field keys are matched case-insensitively against the struct tags, as
`encoding/json` does (all tags here are ASCII, so lower-casing both sides is
an exact model of Go's fold matching).  A JSON `null` for a field leaves the
field unchanged and produces no error; a type mismatch is an error; unknown
keys are ignored; with duplicate keys, later values are decoded into the
already-populated struct, so the last assignment wins. -/

def asciiLowerChar (c : Char) : Char :=
  if 'A' ≤ c ∧ c ≤ 'Z' then Char.ofNat (c.toNat + 32) else c

def asciiLower (s : String) : String := String.mk (s.data.map asciiLowerChar)

def keyMatches (k target : String) : Bool := asciiLower k == target

def applyPlatformField (p : PlatformDetails) (kv : String × Json) : Except String PlatformDetails :=
  if keyMatches kv.1 "architecture" then
    match kv.2 with
    | .null => .ok p
    | .str s => .ok { p with Architecture := s }
    | _ => .error "json: cannot unmarshal value into field architecture of type string"
  else if keyMatches kv.1 "os" then
    match kv.2 with
    | .null => .ok p
    | .str s => .ok { p with OS := s }
    | _ => .error "json: cannot unmarshal value into field os of type string"
  else if keyMatches kv.1 "variant" then
    match kv.2 with
    | .null => .ok p
    | .str s => .ok { p with Variant := s }
    | _ => .error "json: cannot unmarshal value into field variant of type string"
  else .ok p

def foldPlatformFields : PlatformDetails → List (String × Json) → Except String PlatformDetails
  | p, [] => .ok p
  | p, kv :: rest =>
    match applyPlatformField p kv with
    | .error e => .error e
    | .ok p' => foldPlatformFields p' rest

def applyEntryField (m : ManifestEntry) (kv : String × Json) : Except String ManifestEntry :=
  if keyMatches kv.1 "digest" then
    match kv.2 with
    | .null => .ok m
    | .str s => .ok { m with Digest := s }
    | _ => .error "json: cannot unmarshal value into field digest of type string"
  else if keyMatches kv.1 "mediatype" then
    match kv.2 with
    | .null => .ok m
    | .str s => .ok { m with MediaType := s }
    | _ => .error "json: cannot unmarshal value into field mediaType of type string"
  else if keyMatches kv.1 "platform" then
    match kv.2 with
    | .null => .ok m
    | .obj fs =>
      match foldPlatformFields m.Platform fs with
      | .error e => .error e
      | .ok p => .ok { m with Platform := p }
    | _ => .error "json: cannot unmarshal value into field platform of type PlatformDetails"
  else if keyMatches kv.1 "size" then
    match kv.2 with
    | .null => .ok m
    | .num n => .ok { m with Size := n }
    | _ => .error "json: cannot unmarshal value into field size of type int"
  else .ok m

def foldEntryFields : ManifestEntry → List (String × Json) → Except String ManifestEntry
  | m, [] => .ok m
  | m, kv :: rest =>
    match applyEntryField m kv with
    | .error e => .error e
    | .ok m' => foldEntryFields m' rest

def decodeManifestEntry (j : Json) : Except String ManifestEntry :=
  match j with
  | .null => .ok zeroManifestEntry
  | .obj fs => foldEntryFields zeroManifestEntry fs
  | _ => .error "json: cannot unmarshal value into ManifestEntry"

def decodeEntries : List Json → Except String (List ManifestEntry)
  | [] => .ok []
  | j :: rest =>
    match decodeManifestEntry j with
    | .error e => .error e
    | .ok entry =>
      match decodeEntries rest with
      | .error e => .error e
      | .ok es => .ok (entry :: es)

def applyManifestField (m : ImageManifest) (kv : String × Json) : Except String ImageManifest :=
  if keyMatches kv.1 "manifests" then
    match kv.2 with
    | .null => .ok m
    | .arr xs =>
      match decodeEntries xs with
      | .error e => .error e
      | .ok es => .ok { m with Manifests := some es }
    | _ => .error "json: cannot unmarshal value into field manifests of type list"
  else if keyMatches kv.1 "mediatype" then
    match kv.2 with
    | .null => .ok m
    | .str s => .ok { m with MediaType := s }
    | _ => .error "json: cannot unmarshal value into field mediaType of type string"
  else if keyMatches kv.1 "schemaversion" then
    match kv.2 with
    | .null => .ok m
    | .num n => .ok { m with SchemaVersion := n }
    | _ => .error "json: cannot unmarshal value into field schemaVersion of type int"
  else .ok m

def foldManifestFields : ImageManifest → List (String × Json) → Except String ImageManifest
  | m, [] => .ok m
  | m, kv :: rest =>
    match applyManifestField m kv with
    | .error e => .error e
    | .ok m' => foldManifestFields m' rest

def decodeImageManifest (j : Json) : Except String ImageManifest :=
  match j with
  | .null => .ok zeroImageManifest
  | .obj fs => foldManifestFields zeroImageManifest fs
  | _ => .error "json: cannot unmarshal value into ImageManifest"

/-- Raw manifest bytes as fetched from the registry: either bytes that parse
as a JSON document, or bytes that are not well-formed JSON at all. -/
inductive ManifestData where
  | json (j : Json) : ManifestData
  | malformed (reason : String) : ManifestData

/-- `json.Unmarshal(manifestData, &manifest)` from the Go source. -/
def unmarshalImageManifest : ManifestData → Except String ImageManifest
  | .malformed reason => .error reason
  | .json j => decodeImageManifest j

/-- The structural shape discriminator used by `Check`: a decoded manifest is
index-shaped exactly when its `Manifests` slice is non-nil. -/
def isIndexShape (m : ImageManifest) : Bool := m.Manifests.isSome

/-- Fetch-then-classify: decode raw manifest bytes and report the shape. -/
def classifyManifestData (d : ManifestData) : Except String Bool :=
  (unmarshalImageManifest d).map isIndexShape

/-! ## Endpoint options

`srcImageOptions` and `destImageOptions` are declared elsewhere in the
repository.  Modelled from the spec: an `ImageEndpoint` holds an image
locator string and a registry access context whose destination side carries
an explicit target-architecture override (`dockerImage.arch`); only the
fields read by this file are modelled. -/

structure dockerImageOptions where
  arch : String

structure srcImageOptions where
  imageName : String

structure destImageOptions where
  imageName : String
  dockerImage : dockerImageOptions

structure CopyImageOptions where
  srcImage : srcImageOptions
  destImage : destImageOptions

/-- The only field of `types.ImageInspectInfo` consumed by `Check`. -/
structure ImageInspectInfo where
  Architecture : String

/-! ## `strings.Split(s, "//")` -/

def splitOnDSAux (acc : List Char) : List Char → List (List Char)
  | '/' :: '/' :: rest => acc :: splitOnDSAux [] rest
  | c :: rest => splitOnDSAux (acc ++ [c]) rest
  | [] => [acc]

/-- Go's `strings.Split(s, "//")`: split around each non-overlapping
occurrence of `"//"`, scanning left to right. -/
def goSplitDoubleSlash (s : String) : List String :=
  (splitOnDSAux [] s.data).map fun cs => String.mk cs

/-! ## The `Check` embedding

External calls are oracles in `CheckEnv`; each records the outcome of one
call site of `Check`, errors as the collaborator's message string.  The
returned `Trace` counts the resource events `Check` performs: the `src`
image-source handle is opened at `newImageSource` and has no close call in
the source, while the secondary `img` handle is closed by a deferred close
on every path after a successful open. -/

structure CheckEnv where
  parseImageName : String → Except String Unit
  newImageSource : Except String Unit
  getManifest : Except String (ManifestData × String)
  parseDockerReference : String → Except String Unit
  newImage : Except String Unit
  inspect : Except String ImageInspectInfo

inductive GoErr where
  | refParse (msg : String) : GoErr
  | sourceOpen (msg : String) : GoErr
  | fetchManifest (msg : String) : GoErr
  | decodeManifest (msg : String) : GoErr
  | openImage (msg : String) : GoErr
  | inspectImage (msg : String) : GoErr
  | newPolicyCtx (msg : String) : GoErr
  | sigRejected : GoErr
  | execCopy (msg : String) : GoErr
deriving DecidableEq

/-- A Go function either returns its result tuple or panics. -/
inductive CheckOutcome where
  | ret (ok : Bool) (err : Option GoErr) : CheckOutcome
  | panic (msg : String) : CheckOutcome
deriving DecidableEq

structure Trace where
  srcCloses : Nat := 0
  dockerRefParses : Nat := 0
  imgOpens : Nat := 0
  imgCloses : Nat := 0
  inspects : Nat := 0
deriving DecidableEq

structure CheckResult where
  outcome : CheckOutcome
  trace : Trace
deriving DecidableEq

/-- `func (c *CopyImageOptions) Check() (bool, error)` translated line by
line; the second component of `getManifest`'s result is the MIME type, which
the source discards. -/
def Check (c : CopyImageOptions) (env : CheckEnv) : CheckResult :=
  match env.parseImageName c.srcImage.imageName with
  | .error e => ⟨.ret false (some (.refParse e)), {}⟩
  | .ok _ =>
    match env.newImageSource with
    | .error e => ⟨.ret false (some (.sourceOpen e)), {}⟩
    | .ok _ =>
      match env.getManifest with
      | .error e => ⟨.ret false (some (.fetchManifest e)), {}⟩
      | .ok manifestData =>
        match unmarshalImageManifest manifestData.1 with
        | .error e => ⟨.ret false (some (.decodeManifest e)), {}⟩
        | .ok manifest =>
          match manifest.Manifests with
          | none =>
            match (goSplitDoubleSlash c.srcImage.imageName).get? 1 with
            | none => ⟨.panic "runtime error: index out of range", {}⟩
            | some tail =>
              match env.parseDockerReference ("//" ++ tail) with
              | .error e => ⟨.ret false (some (.refParse e)), { dockerRefParses := 1 }⟩
              | .ok _ =>
                match env.newImage with
                | .error e => ⟨.ret false (some (.openImage e)), { dockerRefParses := 1 }⟩
                | .ok _ =>
                  match env.inspect with
                  | .error e =>
                    ⟨.ret false (some (.inspectImage e)),
                     { dockerRefParses := 1, imgOpens := 1, imgCloses := 1, inspects := 1 }⟩
                  | .ok inspectedImage =>
                    if inspectedImage.Architecture ≠ c.destImage.dockerImage.arch then
                      ⟨.ret false none,
                       { dockerRefParses := 1, imgOpens := 1, imgCloses := 1, inspects := 1 }⟩
                    else
                      ⟨.ret true none,
                       { dockerRefParses := 1, imgOpens := 1, imgCloses := 1, inspects := 1 }⟩
          | some _ => ⟨.ret true none, {}⟩

/-! ## Trust policy and the `Copy` embedding -/

/-- An image presented to the signature-policy evaluator; only whether its
signatures would satisfy a verifying requirement matters. -/
structure ImageDesc where
  validlySigned : Bool

inductive PolicyRequirement where
  | insecureAcceptAnything : PolicyRequirement
  | signedByRequirement : PolicyRequirement
  | rejectRequirement : PolicyRequirement
deriving DecidableEq

structure Policy where
  Default : List PolicyRequirement
deriving DecidableEq

/-- `signature.NewPRInsecureAcceptAnything()`. -/
def NewPRInsecureAcceptAnything : PolicyRequirement := .insecureAcceptAnything

/-- Semantics of one policy requirement, per the containers/image signature
library interface: the insecure-accept-anything requirement allows every
image unconditionally, a signed-by requirement allows only validly signed
images, reject allows none. -/
def requirementAllows : PolicyRequirement → ImageDesc → Bool
  | .insecureAcceptAnything, _ => true
  | .signedByRequirement, img => img.validlySigned
  | .rejectRequirement, _ => false

/-- Library semantics of policy evaluation: an image is allowed when the
requirement list is non-empty and every requirement allows it. -/
def isImageAllowed (p : Policy) (img : ImageDesc) : Bool :=
  !p.Default.isEmpty && p.Default.all fun r => requirementAllows r img

structure CopyEnv where
  newPolicyContext : Except String Unit
  parseImageName : String → Except String Unit
  srcImg : ImageDesc
  runCopy : Except String Unit

/-- The policy literal built inside `getPolicyContext`:
`&signature.Policy{Default: []signature.PolicyRequirement{signature.NewPRInsecureAcceptAnything()}}`. -/
def copyPolicy : Policy := { Default := [NewPRInsecureAcceptAnything] }

/-- `func getPolicyContext() (*signature.PolicyContext, error)`: builds the
fixed accept-anything policy and wraps it in a context; the external
constructor's outcome is the `newPolicyContext` oracle. -/
def getPolicyContext (env : CopyEnv) : Except String Policy :=
  match env.newPolicyContext with
  | .error e => .error e
  | .ok _ => .ok copyPolicy

/-- `copy.Image` at its interface boundary: the source image is evaluated
against the trust-policy context and rejected if not allowed; otherwise the
transfer itself may succeed or fail for non-signature reasons (`runCopy`). -/
def copyImage (policyContext : Policy) (env : CopyEnv) : Except GoErr Unit :=
  if isImageAllowed policyContext env.srcImg then
    match env.runCopy with
    | .error e => .error (.execCopy e)
    | .ok _ => .ok ()
  else .error .sigRejected

/-- `func (c *CopyImageOptions) Copy() error`, instrumented with the number
of times the deferred `policyContext.Destroy()` runs before returning. -/
def Copy (c : CopyImageOptions) (env : CopyEnv) : Option GoErr × Nat :=
  match getPolicyContext env with
  | .error e => (some (.newPolicyCtx e), 0)
  | .ok policyContext =>
    match env.parseImageName c.srcImage.imageName with
    | .error e => (some (.refParse e), 1)
    | .ok _ =>
      match env.parseImageName c.destImage.imageName with
      | .error e => (some (.refParse e), 1)
      | .ok _ =>
        match copyImage policyContext env with
        | .error e => (some e, 1)
        | .ok _ => (none, 1)

/-! ## The `Index` model and its Go JSON serialization -/

structure annotations where
  RefName : String

structure Manifest where
  Annotations : annotations

structure Index where
  Manifests : Option (List Manifest)

def NewIndex : Index := { Manifests := some [] }

/-- `json.Marshal` of `annotations`: the one field carries the tag
`org.opencontainers.image.ref.name`. -/
def marshalAnnotations (a : annotations) : Json :=
  .obj [("org.opencontainers.image.ref.name", .str a.RefName)]

/-- `json.Marshal` of `Manifest`: the untagged exported field marshals under
its Go field name `Annotations`. -/
def marshalManifest (m : Manifest) : Json :=
  .obj [("Annotations", marshalAnnotations m.Annotations)]

/-- `json.Marshal` of `Index`: the untagged exported field marshals under
`Manifests`; a nil slice marshals as JSON null, a non-nil slice as an array. -/
def marshalIndex (i : Index) : Json :=
  .obj [("Manifests",
    match i.Manifests with
    | none => Json.null
    | some l => Json.arr (l.map marshalManifest))]

/-! ## Outcome classifiers used by the statements below -/

/-- Is this outcome a returned `(false, ReferenceParseError)`? -/
def isRefParseReturn : CheckOutcome → Bool
  | .ret false (some (.refParse _)) => true
  | _ => false

/-- Is this outcome a returned `(true, err)` with a non-nil error? -/
def isTrueWithErr : CheckOutcome → Bool
  | .ret true (some _) => true
  | _ => false

/-- Is this `Copy` error a signature-policy rejection? -/
def isSigReject : Option GoErr → Bool
  | some .sigRejected => true
  | _ => false

/-- Two decoded manifests that may differ only in their `MediaType` field. -/
def mediaAgnostic (a b : ImageManifest) : Prop :=
  a.Manifests = b.Manifests ∧ a.SchemaVersion = b.SchemaVersion

/-- `mediaAgnostic` lifted to decoder results: both fail with the same
message, or both succeed with `mediaAgnostic` values. -/
def exceptAgnostic : Except String ImageManifest → Except String ImageManifest → Prop
  | .error e, .error e' => e = e'
  | .ok a, .ok b => mediaAgnostic a b
  | _, _ => False

/-! ## Concrete inputs used by witnesses and counterexamples -/

def optsW : CopyImageOptions :=
  { srcImage := { imageName := "docker://reg.example.com/app:v1" },
    destImage := { imageName := "docker://dst.example.com/app:v1",
                   dockerImage := { arch := "amd64" } } }

/-- A locator that parses under a transport with no `//` separator. -/
def optsNoSep : CopyImageOptions :=
  { srcImage := { imageName := "docker-daemon:alpine:3" },
    destImage := { imageName := "docker://dst.example.com/app:v1",
                   dockerImage := { arch := "amd64" } } }

/-- All collaborators succeed; the fetched manifest is flat (no `manifests`
field) and the secondary inspection reports architecture `amd64`. -/
def envFlatW : CheckEnv :=
  { parseImageName := fun _ => .ok (),
    newImageSource := .ok (),
    getManifest := .ok (.json .null, "application/vnd.docker.distribution.manifest.v2+json"),
    parseDockerReference := fun _ => .ok (),
    newImage := .ok (),
    inspect := .ok { Architecture := "amd64" } }

/-- Same as `envFlatW` but the fetched manifest is an index document. -/
def envIndexW : CheckEnv :=
  { envFlatW with
    getManifest := .ok (.json (.obj [("manifests", .arr [])]),
                        "application/vnd.oci.image.index.v1+json") }

/-- Same as `envFlatW` but the fetched bytes are not well-formed JSON. -/
def envBadJsonW : CheckEnv :=
  { envFlatW with
    getManifest := .ok (.malformed "unexpected end of JSON input",
                        "application/vnd.oci.image.manifest.v1+json") }

def copyEnvW : CopyEnv :=
  { newPolicyContext := .ok (),
    parseImageName := fun _ => .ok (),
    srcImg := { validlySigned := false },
    runCopy := .ok () }

def copyEnvNoPolicyW : CopyEnv :=
  { copyEnvW with newPolicyContext := .error "policy failure" }

/-! ## Theorems -/

/-- Claim C9: `Check` never returns `(true, err)` with a non-nil error: on
every execution, a non-nil returned error comes with a `false` boolean, and
a `true` boolean comes with a nil error. -/
theorem check_never_true_with_error (c : CopyImageOptions) (env : CheckEnv) :
    isTrueWithErr (Check c env).outcome = false := by
  unfold Check
  repeat' split
  all_goals rfl

/-- Claim C10: on every execution path of `Check`, the image-source handle
opened for the initial manifest fetch is never closed before `Check`
returns, while the secondary full image handle opened on the flat-shape path
is closed exactly as many times as it is opened (always closed once opened,
whether or not the inspection succeeds). -/
theorem check_handle_lifecycle (c : CopyImageOptions) (env : CheckEnv) :
    (Check c env).trace.srcCloses = 0
    ∧ (Check c env).trace.imgCloses = (Check c env).trace.imgOpens := by
  unfold Check
  repeat' split
  all_goals exact ⟨rfl, rfl⟩

/-- Claim C6: the trust-policy context used by `Copy` is built from a policy
whose default requirement list is exactly the one-element list holding the
unconditional accept-anything requirement; that policy allows every image,
so `Copy` never fails with a signature rejection. -/
theorem copy_policy_accepts_anything :
    copyPolicy.Default = [NewPRInsecureAcceptAnything]
    ∧ copyPolicy.Default.length = 1
    ∧ (∀ img : ImageDesc, isImageAllowed copyPolicy img = true)
    ∧ ∀ (c : CopyImageOptions) (env : CopyEnv), isSigReject (Copy c env).1 = false := by
  refine ⟨rfl, rfl, fun img => rfl, fun c env => ?_⟩
  unfold Copy getPolicyContext copyImage
  cases env.newPolicyContext
  · rfl
  · cases env.parseImageName c.srcImage.imageName
    · rfl
    · cases env.parseImageName c.destImage.imageName
      · rfl
      · cases env.runCopy <;> rfl

/-- Claim C5: whenever the trust-policy context is acquired, the deferred
release runs exactly once before `Copy` returns, on the success path and on
every error path after acquisition; when acquisition fails, `Copy` returns
that error with no release. -/
theorem copy_releases_policy_context (c : CopyImageOptions) (env : CopyEnv) :
    ((Copy c env).2 = match env.newPolicyContext with | .ok _ => 1 | .error _ => 0)
    ∧ ∀ e, env.newPolicyContext = .error e → Copy c env = (some (.newPolicyCtx e), 0) := by
  constructor
  · unfold Copy getPolicyContext
    repeat' split
    all_goals simp_all
  · intro e he
    unfold Copy getPolicyContext
    rw [he]

/-- Witness for C5 at a concrete input: with a failing context constructor,
`Copy` returns the policy error and performs zero releases. -/
theorem copy_releases_policy_context_witness :
    Copy optsW copyEnvNoPolicyW = (some (.newPolicyCtx "policy failure"), 0) :=
  (copy_releases_policy_context optsW copyEnvNoPolicyW).2 "policy failure" rfl

/-- Claim C1: on the flat-shape path with all resolution steps succeeding,
`Check` returns `(true, nil)` exactly when the inspected architecture equals
the destination's configured target architecture, and `(false, nil)` exactly
when the two strings differ. -/
theorem check_flat_arch_iff (c : CopyImageOptions) (env : CheckEnv)
    (d : ManifestData) (mt : String) (m : ImageManifest)
    (tail : String) (info : ImageInspectInfo)
    (hparse : env.parseImageName c.srcImage.imageName = .ok ())
    (hsrc : env.newImageSource = .ok ())
    (hfetch : env.getManifest = .ok (d, mt))
    (hdec : unmarshalImageManifest d = .ok m)
    (hflat : m.Manifests = none)
    (htail : (goSplitDoubleSlash c.srcImage.imageName).get? 1 = some tail)
    (href : env.parseDockerReference ("//" ++ tail) = .ok ())
    (himg : env.newImage = .ok ())
    (hins : env.inspect = .ok info) :
    ((Check c env).outcome = .ret true none
      ↔ info.Architecture = c.destImage.dockerImage.arch)
    ∧ ((Check c env).outcome = .ret false none
      ↔ info.Architecture ≠ c.destImage.dockerImage.arch) := by
  unfold Check
  rw [hparse, hsrc, hfetch]
  simp only [hdec, hflat, htail, href, himg, hins]
  by_cases h : info.Architecture = c.destImage.dockerImage.arch <;> simp [h]

/-- Witness for C1: with matching `amd64` architectures everything succeeds
and the equivalences hold at the concrete input. -/
theorem check_flat_arch_iff_witness :
    ((Check optsW envFlatW).outcome = .ret true none ↔ "amd64" = "amd64")
    ∧ ((Check optsW envFlatW).outcome = .ret false none ↔ "amd64" ≠ "amd64") :=
  check_flat_arch_iff optsW envFlatW (.json .null)
    "application/vnd.docker.distribution.manifest.v2+json" zeroImageManifest
    "reg.example.com/app:v1" { Architecture := "amd64" }
    rfl rfl rfl rfl rfl rfl rfl rfl rfl

/-- Claim C3: when the fetched manifest decodes with a present, non-null
`manifests` field, `Check` returns `(true, nil)` for every destination
configuration, with an all-zero resource trace: no reference derivation, no
secondary image open, no inspection, hence no per-entry comparison. -/
theorem check_index_shape_compatible (c : CopyImageOptions) (env : CheckEnv)
    (d : ManifestData) (mt : String) (m : ImageManifest) (l : List ManifestEntry)
    (hparse : env.parseImageName c.srcImage.imageName = .ok ())
    (hsrc : env.newImageSource = .ok ())
    (hfetch : env.getManifest = .ok (d, mt))
    (hdec : unmarshalImageManifest d = .ok m)
    (hidx : m.Manifests = some l) :
    Check c env = ⟨.ret true none, {}⟩ := by
  unfold Check
  rw [hparse, hsrc, hfetch]
  simp only [hdec, hidx]

/-- Witness for C3: a concrete index manifest makes `Check` succeed with an
empty trace. -/
theorem check_index_shape_compatible_witness :
    Check optsW envIndexW = ⟨.ret true none, {}⟩ :=
  check_index_shape_compatible optsW envIndexW
    (.json (.obj [("manifests", .arr [])]))
    "application/vnd.oci.image.index.v1+json"
    { Manifests := some [], MediaType := "", SchemaVersion := 0 } []
    rfl rfl rfl rfl rfl

/-- Claim C7: when the fetched manifest bytes do not decode as a well-formed
manifest document, `Check` returns `(false, err)` carrying the decode error,
with an all-zero resource trace: no secondary image inspection is attempted. -/
theorem check_decode_error (c : CopyImageOptions) (env : CheckEnv)
    (d : ManifestData) (mt : String) (e : String)
    (hparse : env.parseImageName c.srcImage.imageName = .ok ())
    (hsrc : env.newImageSource = .ok ())
    (hfetch : env.getManifest = .ok (d, mt))
    (hdec : unmarshalImageManifest d = .error e) :
    Check c env = ⟨.ret false (some (.decodeManifest e)), {}⟩ := by
  unfold Check
  rw [hparse, hsrc, hfetch]
  simp only [hdec]

/-- Witness for C7: malformed bytes (a truncated payload) produce the decode
error return at a concrete input. -/
theorem check_decode_error_witness :
    Check optsW envBadJsonW
      = ⟨.ret false (some (.decodeManifest "unexpected end of JSON input")), {}⟩ :=
  check_decode_error optsW envBadJsonW
    (.malformed "unexpected end of JSON input")
    "application/vnd.oci.image.manifest.v1+json"
    "unexpected end of JSON input" rfl rfl rfl rfl

/-- Counterexample for C4 as stated: with the locator
`docker-daemon:alpine:3` (parseable, but without a `//` substring) and a
flat manifest, `Check` does not return a `ReferenceParseError` — it panics
with an index-out-of-range runtime error at `strings.Split(...)[1]`. -/
theorem check_missing_separator_not_refparse :
    isRefParseReturn (Check optsNoSep envFlatW).outcome = false
    ∧ (Check optsNoSep envFlatW).outcome = .panic "runtime error: index out of range" := by
  exact ⟨rfl, rfl⟩

/-- Claim C4 (amended): for every source locator that parses as an image
name but lacks the `//` separator, when the fetched manifest is flat-shaped
`Check` panics with an index-out-of-range runtime error — a fatal failure
rather than a silent fallback, but a panic, not a returned
`ReferenceParseError`. -/
theorem check_missing_separator_panics (c : CopyImageOptions) (env : CheckEnv)
    (d : ManifestData) (mt : String) (m : ImageManifest)
    (hparse : env.parseImageName c.srcImage.imageName = .ok ())
    (hsrc : env.newImageSource = .ok ())
    (hfetch : env.getManifest = .ok (d, mt))
    (hdec : unmarshalImageManifest d = .ok m)
    (hflat : m.Manifests = none)
    (hsep : (goSplitDoubleSlash c.srcImage.imageName).get? 1 = none) :
    (Check c env).outcome = .panic "runtime error: index out of range" := by
  unfold Check
  rw [hparse, hsrc, hfetch]
  simp only [hdec, hflat, hsep]

/-- Witness for the amended C4 at the concrete separator-free locator. -/
theorem check_missing_separator_panics_witness :
    (Check optsNoSep envFlatW).outcome = .panic "runtime error: index out of range" :=
  check_missing_separator_panics optsNoSep envFlatW (.json .null)
    "application/vnd.docker.distribution.manifest.v2+json" zeroImageManifest
    rfl rfl rfl rfl rfl rfl

/-- One decoding step relates `mediaAgnostic` states to `mediaAgnostic`
states: only the `MediaType` field of the accumulator can differ, and no
branch of the field decoder reads it. -/
theorem applyManifestField_agnostic (a b : ImageManifest) (kv : String × Json)
    (h : mediaAgnostic a b) :
    exceptAgnostic (applyManifestField a kv) (applyManifestField b kv) := by
  obtain ⟨h1, h2⟩ := h
  rcases kv with ⟨k, v⟩
  unfold applyManifestField
  split_ifs <;> cases v <;>
    first
      | rfl
      | exact ⟨h1, h2⟩
      | exact ⟨h1, rfl⟩
      | (rename_i xs hk
         rcases hde : decodeEntries xs with e | es <;>
           simp [exceptAgnostic, mediaAgnostic, hde, h1, h2])

theorem foldManifestFields_agnostic (fs : List (String × Json)) (a b : ImageManifest)
    (h : mediaAgnostic a b) :
    exceptAgnostic (foldManifestFields a fs) (foldManifestFields b fs) := by
  induction fs generalizing a b with
  | nil => exact h
  | cons kv rest ih =>
    have hkv := applyManifestField_agnostic a b kv h
    unfold foldManifestFields
    cases ha : applyManifestField a kv <;> cases hb : applyManifestField b kv <;>
      rw [ha, hb] at hkv
    · exact hkv
    · exact hkv.elim
    · exact hkv.elim
    · exact ih _ _ hkv

theorem applyManifestField_mediaType (a : ImageManifest) (s : String) :
    applyManifestField a ("mediaType", Json.str s) = .ok { a with MediaType := s } := rfl

theorem foldManifestFields_mediaKey (pre post : List (String × Json)) (s1 s2 : String)
    (a : ImageManifest) :
    exceptAgnostic (foldManifestFields a (pre ++ ("mediaType", Json.str s1) :: post))
                   (foldManifestFields a (pre ++ ("mediaType", Json.str s2) :: post)) := by
  induction pre generalizing a with
  | nil =>
    simp only [List.nil_append]
    unfold foldManifestFields
    rw [applyManifestField_mediaType, applyManifestField_mediaType]
    exact foldManifestFields_agnostic post _ _ ⟨rfl, rfl⟩
  | cons kv rest ih =>
    simp only [List.cons_append]
    unfold foldManifestFields
    cases applyManifestField a kv
    · rfl
    · exact ih _

/-- Claim C2: the decoded shape test used by `Check` classifies a manifest
as index-shaped exactly when the decoded `manifests` field is non-nil, and
the declared `mediaType` string has no influence: two JSON manifest
documents that differ only in the string value at their `mediaType` key are
classified identically. -/
theorem manifest_shape_discrimination :
    (∀ m : ImageManifest, isIndexShape m = !m.Manifests.isNone)
    ∧ ∀ (pre post : List (String × Json)) (s1 s2 : String),
        classifyManifestData (.json (.obj (pre ++ ("mediaType", Json.str s1) :: post)))
        = classifyManifestData (.json (.obj (pre ++ ("mediaType", Json.str s2) :: post))) := by
  constructor
  · intro m
    cases h : m.Manifests <;> simp [isIndexShape, h]
  · intro pre post s1 s2
    have key := foldManifestFields_mediaKey pre post s1 s2 zeroImageManifest
    unfold classifyManifestData unmarshalImageManifest decodeImageManifest
    dsimp only
    cases hx : foldManifestFields zeroImageManifest (pre ++ ("mediaType", Json.str s1) :: post) <;>
      cases hy : foldManifestFields zeroImageManifest (pre ++ ("mediaType", Json.str s2) :: post) <;>
      rw [hx, hy] at key
    · cases key; rfl
    · exact key.elim
    · exact key.elim
    · obtain ⟨hm, _⟩ := key
      simp [Except.map, isIndexShape, hm]

/-- Decoding one serialized `Manifest` entry: its only key, `Annotations`,
matches no field of `ManifestEntry` and is ignored, leaving the zero entry. -/
theorem decodeManifestEntry_marshal (x : Manifest) :
    decodeManifestEntry (marshalManifest x) = .ok zeroManifestEntry := rfl

theorem decodeEntries_marshal (l : List Manifest) :
    decodeEntries (l.map marshalManifest) = .ok (l.map fun _ => zeroManifestEntry) := by
  induction l with
  | nil => rfl
  | cons x rest ih =>
    simp only [List.map_cons]
    unfold decodeEntries
    rw [decodeManifestEntry_marshal, ih]

/-- The serialized `Index` key `Manifests` case-insensitively matches the
probe's `manifests` tag, so its array value is decoded into the slice. -/
theorem applyManifestField_ManifestsKey (a : ImageManifest) (xs : List Json) :
    applyManifestField a ("Manifests", Json.arr xs)
      = match decodeEntries xs with
        | .error e => .error e
        | .ok es => .ok { a with Manifests := some es } := rfl

/-- Claim C8: round-trip — an `Index` built by `NewIndex` and populated with
at least one `Manifest` entry, serialized by Go JSON marshalling and decoded
through the manifest probe, is classified as index-shaped. -/
theorem index_roundtrip_index_shaped (m : Manifest) (ms : List Manifest) :
    classifyManifestData (.json (marshalIndex { NewIndex with Manifests := some (m :: ms) }))
      = .ok true := by
  unfold classifyManifestData unmarshalImageManifest marshalIndex decodeImageManifest
  dsimp only
  unfold foldManifestFields
  rw [applyManifestField_ManifestsKey, decodeEntries_marshal]
  rfl

end Images
